import Mathlib

/-!
Shallow embedding of `src/src/holdem/vanillaholdem.rs` (halo2 poker-hand
circuit).  The constraint system is modelled as a list of named gates, each a
list of polynomial expressions over selector queries and column queries; a row
is satisfiable when every registered expression evaluates to zero.  The
witness assigner `assign_card` is modelled as the list of region operations it
performs, run against an abstract backend write primitive.
-/

/-- A column of the constraint system: an advice (witness) column or an
instance (public) column, identified by allocation index. -/
inductive Col where
  | advice : Nat → Col
  | inst : Nat → Col
deriving DecidableEq, Repr

/-- Polynomial expressions as built by `create_gate` closures: constants,
selector queries, column queries (at `Rotation::cur()`), subtraction and
multiplication.  Mirrors halo2's `Expression` as used by the source. -/
inductive Expr (F : Type) where
  | const : F → Expr F
  | selector : Nat → Expr F
  | query : Col → Expr F
  | sub : Expr F → Expr F → Expr F
  | mul : Expr F → Expr F → Expr F
deriving DecidableEq

/-- A named gate: the result of one `meta.create_gate(name, ...)` call. -/
structure Gate (F : Type) where
  name : String
  polys : List (Expr F)
deriving DecidableEq

variable {F : Type} [Field F]

/-- Evaluate an expression against selector values, advice-column values and
instance-column values for the (single) row. -/
def Expr.eval (sel : Nat → F) (adv : Nat → F) (inst : Nat → F) : Expr F → F
  | Expr.const c => c
  | Expr.selector s => sel s
  | Expr.query (Col.advice i) => adv i
  | Expr.query (Col.inst i) => inst i
  | Expr.sub a b => Expr.eval sel adv inst a - Expr.eval sel adv inst b
  | Expr.mul a b => Expr.eval sel adv inst a * Expr.eval sel adv inst b

/-- A gate is satisfied when all its polynomial constraints vanish. -/
def gateSatisfied (sel adv inst : Nat → F) (g : Gate F) : Prop :=
  ∀ e ∈ g.polys, Expr.eval sel adv inst e = 0

instance (sel adv inst : Nat → F) [DecidableEq F] (g : Gate F) :
    Decidable (gateSatisfied sel adv inst g) :=
  List.decidableBAll _ g.polys

/-- The whole registered constraint system is satisfied when every gate is. -/
def systemSatisfied (gs : List (Gate F)) (sel adv inst : Nat → F) : Prop :=
  ∀ g ∈ gs, gateSatisfied sel adv inst g

instance (gs : List (Gate F)) (sel adv inst : Nat → F) [DecidableEq F] :
    Decidable (systemSatisfied gs sel adv inst) :=
  List.decidableBAll _ gs

/-- The config record returned by `VanillaHoldemChip::configure`; selectors
are identified by allocation index. -/
structure VanillaHoldemConfig where
  q_straight : Nat
  q_flush : Nat
  q_one_pair : Nat
  q_two_pair : Nat
  q_three_of_a_kind : Nat
  q_four_of_a_kind : Nat
  cards : Fin 5 → Col
  table_cards : Fin 2 → Col

/-- `VanillaHoldemChip::configure`: registers the seven gates of the source
(straight, flush, one pair, two pair, three of a kind, four of a kind, full
house) and returns the config.  The returned gate list models the mutation of
the `ConstraintSystem` handle; every loop of the source is unrolled. -/
def VanillaHoldemChip.configure
    (q_flush q_straight q_one_pair q_two_pair q_three_of_a_kind q_four_of_a_kind : Nat)
    (cards : Fin 5 → Col) (table_cards : Fin 2 → Col)
    (num_of_pair num_of_same_kind : Col) :
    List (Gate F) × VanillaHoldemConfig :=
  ([ { name := "straight"
       -- for i in 1..5: q_straight * (cards[i] - 1)
     , polys :=
        [ Expr.mul (Expr.selector q_straight) (Expr.sub (Expr.query (cards 1)) (Expr.const 1))
        , Expr.mul (Expr.selector q_straight) (Expr.sub (Expr.query (cards 2)) (Expr.const 1))
        , Expr.mul (Expr.selector q_straight) (Expr.sub (Expr.query (cards 3)) (Expr.const 1))
        , Expr.mul (Expr.selector q_straight) (Expr.sub (Expr.query (cards 4)) (Expr.const 1)) ] }
   , { name := "flush"
       -- for i in 0..4: q_flush * (cards[i] - cards[i+1])
     , polys :=
        [ Expr.mul (Expr.selector q_flush) (Expr.sub (Expr.query (cards 0)) (Expr.query (cards 1)))
        , Expr.mul (Expr.selector q_flush) (Expr.sub (Expr.query (cards 1)) (Expr.query (cards 2)))
        , Expr.mul (Expr.selector q_flush) (Expr.sub (Expr.query (cards 2)) (Expr.query (cards 3)))
        , Expr.mul (Expr.selector q_flush) (Expr.sub (Expr.query (cards 3)) (Expr.query (cards 4))) ] }
   , { name := "one pair"
     , polys :=
        [ Expr.mul (Expr.selector q_one_pair) (Expr.sub (Expr.const 1) (Expr.query num_of_pair)) ] }
   , { name := "two pair"
     , polys :=
        [ Expr.mul (Expr.selector q_two_pair) (Expr.sub (Expr.const 2) (Expr.query num_of_pair)) ] }
   , { name := "three of a kind"
     , polys :=
        [ Expr.mul (Expr.selector q_three_of_a_kind) (Expr.sub (Expr.const 3) (Expr.query num_of_same_kind)) ] }
   , { name := "four of a kind"
     , polys :=
        [ Expr.mul (Expr.selector q_four_of_a_kind) (Expr.sub (Expr.const 4) (Expr.query num_of_same_kind)) ] }
   , { name := "full house"
     , polys :=
        [ Expr.mul (Expr.selector q_three_of_a_kind) (Expr.sub (Expr.const 3) (Expr.query num_of_same_kind))
        , Expr.mul (Expr.selector q_one_pair) (Expr.sub (Expr.const 1) (Expr.query num_of_pair)) ] }
   ],
   { q_straight := q_straight
   , q_flush := q_flush
   , q_one_pair := q_one_pair
   , q_two_pair := q_two_pair
   , q_three_of_a_kind := q_three_of_a_kind
   , q_four_of_a_kind := q_four_of_a_kind
   , cards := cards
   , table_cards := table_cards })

/-- `VanillaHoldemCircuit::configure`: allocates selectors in source order
(`q_flush`, `q_straight`, `q_one_pair`, `q_two_pair`, `q_three_of_a_kind`,
`q_four_of_a_kind` receive indices 0..5), advice columns `cards[0..4]` then
`num_of_pair` (index 5) and `num_of_same_kind` (index 6), instance columns
`table_cards[0..1]`, and calls the chip's configure. -/
def VanillaHoldemCircuit.configure (F : Type) [Field F] :
    List (Gate F) × VanillaHoldemConfig :=
  VanillaHoldemChip.configure 0 1 2 3 4 5
    (fun i => Col.advice i.val) (fun j => Col.inst j.val)
    (Col.advice 5) (Col.advice 6)

/-- The gates registered by the circuit's configure. -/
def circuitGates (F : Type) [Field F] : List (Gate F) :=
  (VanillaHoldemCircuit.configure F).1

/-- The config produced by the circuit's configure. -/
def circuitConfig : VanillaHoldemConfig :=
  (VanillaHoldemCircuit.configure Rat).2

/-- The six selector flags of a row, in allocation order of the circuit's
configure. -/
structure Selectors where
  q_flush : Bool
  q_straight : Bool
  q_one_pair : Bool
  q_two_pair : Bool
  q_three_of_a_kind : Bool
  q_four_of_a_kind : Bool
deriving DecidableEq

/-- A selector contributes 1 to an expression when enabled for the row and 0
otherwise. -/
def Selectors.toFn (s : Selectors) : Nat → F
  | 0 => if s.q_flush then 1 else 0
  | 1 => if s.q_straight then 1 else 0
  | 2 => if s.q_one_pair then 1 else 0
  | 3 => if s.q_two_pair then 1 else 0
  | 4 => if s.q_three_of_a_kind then 1 else 0
  | 5 => if s.q_four_of_a_kind then 1 else 0
  | _ => 0

/-- The advice values of the single witness row: the five card cells plus the
two auxiliary counts. -/
structure RowAssignment (F : Type) where
  cards : Fin 5 → F
  num_of_pair : F
  num_of_same_kind : F

/-- Advice-column assignment induced by a row, following the circuit's
allocation order: columns 0..4 hold the cards, 5 holds `num_of_pair`,
6 holds `num_of_same_kind`. -/
def RowAssignment.toAdv (r : RowAssignment F) : Nat → F
  | 0 => r.cards 0
  | 1 => r.cards 1
  | 2 => r.cards 2
  | 3 => r.cards 3
  | 4 => r.cards 4
  | 5 => r.num_of_pair
  | 6 => r.num_of_same_kind
  | _ => 0

/-- The row satisfies the full registered constraint system under the given
selector flags and instance values. -/
def satisfiedRow (s : Selectors) (r : RowAssignment F) (inst : Nat → F) : Prop :=
  systemSatisfied (circuitGates F) (Selectors.toFn s) (RowAssignment.toAdv r) inst

instance [DecidableEq F] (s : Selectors) (r : RowAssignment F) (inst : Nat → F) :
    Decidable (satisfiedRow s r inst) := by
  unfold satisfiedRow; infer_instance

/-! ## The witness assigner `assign_card` -/

/-- An operation a region closure may request from the backend: assigning a
cell of a column at a (relative) row, or enabling a selector at a row.  The
cell value is an `Option F`, modelling halo2's `Value` (known or unknown). -/
inductive RegionOp (F : Type) where
  | assignAdvice : Col → Nat → Option F → RegionOp F
  | enableSelector : Nat → Nat → RegionOp F
deriving DecidableEq

/-- The hand vector built by `assign_card`: the two private cards chained with
the three table cards, in that order. -/
def assign_card_hand (cards : Fin 2 → Option F) (table_cards : Fin 3 → Option F) :
    List (Option F) :=
  List.ofFn cards ++ List.ofFn table_cards

/-- The region operations performed by `assign_card`'s closure, in order:
for i in 0..5, `region.assign_advice(cards[i], 0, hand[i])`. -/
def assign_card_ops (cardCols : Fin 5 → Col)
    (cards : Fin 2 → Option F) (table_cards : Fin 3 → Option F) :
    List (RegionOp F) :=
  (List.finRange 5).map fun i =>
    RegionOp.assignAdvice (cardCols i) 0 ((assign_card_hand cards table_cards).getD i.val none)

/-- Run a list of region operations against an abstract backend write
primitive, threading the backend state and stopping at the first error. -/
def runRegion {σ E : Type} (wr : σ → RegionOp F → Except E σ) :
    σ → List (RegionOp F) → Except E σ
  | st, [] => Except.ok st
  | st, op :: ops =>
    match wr st op with
    | Except.ok st2 => runRegion wr st2 ops
    | Except.error e => Except.error e

/-- `VanillaHoldemChip::assign_card` against the circuit's config: performs
its five advice writes in order through the backend's write primitive and
returns the backend's outcome. -/
def assign_card {σ E : Type} (wr : σ → RegionOp F → Except E σ) (st : σ)
    (cards : Fin 2 → Option F) (table_cards : Fin 3 → Option F) : Except E σ :=
  runRegion wr st (assign_card_ops circuitConfig.cards cards table_cards)

/-- A mutable location of the row: a column cell or a selector slot. -/
inductive Target where
  | cell : Col → Nat → Target
  | selectorAt : Nat → Nat → Target
deriving DecidableEq

/-- Concrete store semantics of one region operation: a cell assignment
updates that cell's content, a selector enablement marks that slot. -/
def applyOp (st : Target → Option (Option F)) : RegionOp F → Target → Option (Option F)
  | RegionOp.assignAdvice c r v => fun t =>
      if t = Target.cell c r then some v else st t
  | RegionOp.enableSelector s r => fun t =>
      if t = Target.selectorAt s r then some none else st t

/-- Run a list of region operations over a concrete store. -/
def runStore (st : Target → Option (Option F)) : List (RegionOp F) → Target → Option (Option F)
  | [] => st
  | op :: ops => runStore (applyOp st op) ops

/-- Whether a column is an instance (public) column. -/
def Col.isInst : Col → Bool
  | Col.advice _ => false
  | Col.inst _ => true

/-- The columns queried anywhere inside an expression. -/
def Expr.queriedCols : Expr F → List Col
  | Expr.const _ => []
  | Expr.selector _ => []
  | Expr.query c => [c]
  | Expr.sub a b => Expr.queriedCols a ++ Expr.queriedCols b
  | Expr.mul a b => Expr.queriedCols a ++ Expr.queriedCols b

/-- Whether a region operation is an advice write into one of the five card
columns at relative row 0. -/
def RegionOp.isCardWrite : RegionOp F → Bool
  | RegionOp.assignAdvice (Col.advice i) r _ => decide (i < 5) && decide (r = 0)
  | _ => false

omit [Field F] in
/-- The operation list of `assign_card`, written out: the five card columns
at row 0 receive, in order, private card 0, private card 1, then the three
table cards. -/
lemma assign_card_ops_eq (cards : Fin 2 → Option F) (t : Fin 3 → Option F) :
    assign_card_ops circuitConfig.cards cards t =
      [ RegionOp.assignAdvice (Col.advice 0) 0 (cards 0)
      , RegionOp.assignAdvice (Col.advice 1) 0 (cards 1)
      , RegionOp.assignAdvice (Col.advice 2) 0 (t 0)
      , RegionOp.assignAdvice (Col.advice 3) 0 (t 1)
      , RegionOp.assignAdvice (Col.advice 4) 0 (t 2) ] := rfl

omit [Field F] in
/-- If the backend write primitive succeeds on every operation of the list
(from any state), running the region succeeds. -/
lemma runRegion_ok {σ E : Type} (wr : σ → RegionOp F → Except E σ)
    (ops : List (RegionOp F)) :
    (∀ s op, op ∈ ops → ∃ s2, wr s op = Except.ok s2) →
    ∀ st, ∃ s2, runRegion wr st ops = Except.ok s2 := by
  induction ops with
  | nil => exact fun _ st => ⟨st, rfl⟩
  | cons op ops ih =>
    intro h st
    obtain ⟨s2, hs2⟩ := h st op (List.mem_cons_self op ops)
    obtain ⟨s3, hs3⟩ := ih (fun s o ho => h s o (List.mem_cons_of_mem op ho)) s2
    exact ⟨s3, by simp [runRegion, hs2, hs3]⟩

omit [Field F] in
/-- If running the region fails with error `e`, then the backend write
primitive itself failed with `e` on one of the listed operations. -/
lemma runRegion_error {σ E : Type} (wr : σ → RegionOp F → Except E σ)
    (ops : List (RegionOp F)) :
    ∀ st e, runRegion wr st ops = Except.error e →
      ∃ s op, op ∈ ops ∧ wr s op = Except.error e := by
  induction ops with
  | nil => intro st e h; simp [runRegion] at h
  | cons op ops ih =>
    intro st e h
    rcases hw : wr st op with e2 | s2
    · simp only [runRegion, hw, Except.error.injEq] at h
      subst h
      exact ⟨st, op, List.mem_cons_self op ops, hw⟩
    · simp only [runRegion, hw] at h
      obtain ⟨s, o, ho, he⟩ := ih s2 e h
      exact ⟨s, o, List.mem_cons_of_mem op ho, he⟩

/-! ## Selector configurations named by the claims -/

/-- Only the straight selector is enabled. -/
def onlyStraight : Selectors :=
  { q_flush := false, q_straight := true, q_one_pair := false, q_two_pair := false
  , q_three_of_a_kind := false, q_four_of_a_kind := false }

/-- Only the flush selector is enabled. -/
def onlyFlush : Selectors :=
  { q_flush := true, q_straight := false, q_one_pair := false, q_two_pair := false
  , q_three_of_a_kind := false, q_four_of_a_kind := false }

/-- Only the one-pair selector is enabled. -/
def onlyOnePair : Selectors :=
  { q_flush := false, q_straight := false, q_one_pair := true, q_two_pair := false
  , q_three_of_a_kind := false, q_four_of_a_kind := false }

/-- Only the two-pair selector is enabled. -/
def onlyTwoPair : Selectors :=
  { q_flush := false, q_straight := false, q_one_pair := false, q_two_pair := true
  , q_three_of_a_kind := false, q_four_of_a_kind := false }

/-- Only the three-of-a-kind selector is enabled. -/
def onlyThreeOfAKind : Selectors :=
  { q_flush := false, q_straight := false, q_one_pair := false, q_two_pair := false
  , q_three_of_a_kind := true, q_four_of_a_kind := false }

/-- Only the four-of-a-kind selector is enabled. -/
def onlyFourOfAKind : Selectors :=
  { q_flush := false, q_straight := false, q_one_pair := false, q_two_pair := false
  , q_three_of_a_kind := false, q_four_of_a_kind := true }

/-- One-pair and three-of-a-kind selectors enabled together (the full-house
activation pattern). -/
def pairAndThree : Selectors :=
  { q_flush := false, q_straight := false, q_one_pair := true, q_two_pair := false
  , q_three_of_a_kind := true, q_four_of_a_kind := false }

/-- No selector is enabled. -/
def noSelectors : Selectors :=
  { q_flush := false, q_straight := false, q_one_pair := false, q_two_pair := false
  , q_three_of_a_kind := false, q_four_of_a_kind := false }

/-! ## Claim theorems -/

/-- **C1.** Under the straight selector alone, the registered "straight" gate
constrains each of the card columns 1..4 to equal the field constant 1 and
places no constraint on card column 0: the row is satisfiable exactly when
cards 2-5 each equal 1, independent of the first card. -/
theorem straight_gate_satisfiable_iff (r : RowAssignment F) (inst : Nat → F) :
    satisfiedRow onlyStraight r inst ↔
      (r.cards 1 = 1 ∧ r.cards 2 = 1 ∧ r.cards 3 = 1 ∧ r.cards 4 = 1) := by
  simp [satisfiedRow, systemSatisfied, gateSatisfied, circuitGates,
    VanillaHoldemCircuit.configure, VanillaHoldemChip.configure, Expr.eval,
    Selectors.toFn, onlyStraight, RowAssignment.toAdv, sub_eq_zero]

/-- **C2.** Each counting category's selector, active alone, makes the row
satisfiable exactly when the corresponding auxiliary value equals that
category's constant: one pair needs `num_of_pair = 1`, two pair needs
`num_of_pair = 2`, three of a kind needs `num_of_same_kind = 3`, four of a
kind needs `num_of_same_kind = 4`; any other auxiliary value is
unsatisfiable. -/
theorem counting_gates_satisfiable_iff (r : RowAssignment F) (inst : Nat → F) :
    (satisfiedRow onlyOnePair r inst ↔ r.num_of_pair = 1) ∧
    (satisfiedRow onlyTwoPair r inst ↔ r.num_of_pair = 2) ∧
    (satisfiedRow onlyThreeOfAKind r inst ↔ r.num_of_same_kind = 3) ∧
    (satisfiedRow onlyFourOfAKind r inst ↔ r.num_of_same_kind = 4) := by
  refine ⟨?_, ?_, ?_, ?_⟩ <;>
    simp [satisfiedRow, systemSatisfied, gateSatisfied, circuitGates,
      VanillaHoldemCircuit.configure, VanillaHoldemChip.configure, Expr.eval,
      Selectors.toFn, onlyOnePair, onlyTwoPair, onlyThreeOfAKind, onlyFourOfAKind,
      RowAssignment.toAdv, sub_eq_zero] <;>
    exact eq_comm

/-- **C3.** Under the flush selector alone, the registered "flush" gate
constrains each adjacent card-column pair to be equal: the row is satisfiable
exactly when all five card values are equal (so it is unsatisfiable whenever
any single card differs from the others). -/
theorem flush_gate_satisfiable_iff (r : RowAssignment F) (inst : Nat → F) :
    satisfiedRow onlyFlush r inst ↔
      (r.cards 0 = r.cards 1 ∧ r.cards 1 = r.cards 2 ∧
       r.cards 2 = r.cards 3 ∧ r.cards 3 = r.cards 4) := by
  simp [satisfiedRow, systemSatisfied, gateSatisfied, circuitGates,
    VanillaHoldemCircuit.configure, VanillaHoldemChip.configure, Expr.eval,
    Selectors.toFn, onlyFlush, RowAssignment.toAdv, sub_eq_zero]

/-- **C4.** With both the one-pair and three-of-a-kind selectors active (the
full-house activation pattern), the system enforces `3 - num_of_same_kind = 0`
and `1 - num_of_pair = 0`: the row is satisfiable exactly when
`num_of_same_kind = 3` and `num_of_pair = 1`. -/
theorem full_house_satisfiable_iff (r : RowAssignment F) (inst : Nat → F) :
    satisfiedRow pairAndThree r inst ↔
      (r.num_of_same_kind = 3 ∧ r.num_of_pair = 1) := by
  simp [satisfiedRow, systemSatisfied, gateSatisfied, circuitGates,
    VanillaHoldemCircuit.configure, VanillaHoldemChip.configure, Expr.eval,
    Selectors.toFn, pairAndThree, RowAssignment.toAdv, sub_eq_zero]
  constructor <;> intro h <;> simp_all

/-- Whether an expression is a product whose left factor is a selector
query. -/
def Expr.isSelectorMul : Expr F → Bool
  | Expr.mul (Expr.selector _) _ => true
  | _ => false

/-- **C6.** Every registered constraint is a product of its owning selector
query with a polynomial, and with every selector inactive all constraints
evaluate to zero: the row is trivially satisfiable whatever the advice and
instance values. -/
theorem constraints_selector_gated (F : Type) [Field F] :
    ((circuitGates F).all fun g => g.polys.all Expr.isSelectorMul) = true ∧
    (∀ adv inst : Nat → F,
      systemSatisfied (circuitGates F) (Selectors.toFn noSelectors) adv inst) := by
  constructor
  · rfl
  · intro adv inst
    simp [systemSatisfied, gateSatisfied, circuitGates,
      VanillaHoldemCircuit.configure, VanillaHoldemChip.configure, Expr.eval,
      Selectors.toFn, noSelectors]

/-- **C5, counterexample to the claim as stated.**  No registered gate ever
queries an instance column (every queried column of every constraint is an
advice column), and, on a concrete hand, every region operation of
`assign_card` is an advice write into a card column: nothing in the core
references or writes the two instance columns, so the community cards are not
constrained to equal the public inputs. -/
theorem instance_columns_unreferenced_cex :
    ((circuitGates Rat).all fun g =>
        g.polys.all fun e => e.queriedCols.all fun c => !c.isInst) = true ∧
    ((assign_card_ops (F := Rat) circuitConfig.cards
        (fun _ => some 1) (fun _ => some 2)).all RegionOp.isCardWrite) = true :=
  ⟨rfl, rfl⟩

/-- **C5, amended.**  The two instance columns are declared but inert: no gate
queries an instance column, every write of `assign_card` targets one of the
five advice card columns (the public card values land in advice columns 2..4),
and satisfiability of the registered system is independent of the instance
values — the circuit does not bind the community cards to the public
inputs. -/
theorem instance_columns_inert (F : Type) [Field F]
    (cards : Fin 2 → Option F) (t : Fin 3 → Option F) :
    ((circuitGates F).all fun g =>
        g.polys.all fun e => e.queriedCols.all fun c => !c.isInst) = true ∧
    ((assign_card_ops circuitConfig.cards cards t).all RegionOp.isCardWrite) = true ∧
    (∀ sel adv i1 i2 : Nat → F,
       systemSatisfied (circuitGates F) sel adv i1 ↔
       systemSatisfied (circuitGates F) sel adv i2) := by
  refine ⟨rfl, rfl, ?_⟩
  intro sel adv i1 i2
  simp [systemSatisfied, gateSatisfied, circuitGates,
    VanillaHoldemCircuit.configure, VanillaHoldemChip.configure, Expr.eval]

omit [Field F] in
/-- **C7.**  `assign_card` performs exactly five cell writes into row 0, in
the fixed column order private card 0, private card 1, then the three table
cards into card columns 0..4; and whenever the backend write primitive accepts
each of these writes, `assign_card` returns success. -/
theorem assign_card_writes_five_cells {σ E : Type} (cards : Fin 2 → Option F)
    (t : Fin 3 → Option F) (wr : σ → RegionOp F → Except E σ) (st : σ) :
    assign_card_ops circuitConfig.cards cards t =
      [ RegionOp.assignAdvice (Col.advice 0) 0 (cards 0)
      , RegionOp.assignAdvice (Col.advice 1) 0 (cards 1)
      , RegionOp.assignAdvice (Col.advice 2) 0 (t 0)
      , RegionOp.assignAdvice (Col.advice 3) 0 (t 1)
      , RegionOp.assignAdvice (Col.advice 4) 0 (t 2) ] ∧
    ((∀ s op, op ∈ assign_card_ops circuitConfig.cards cards t →
        ∃ s2, wr s op = Except.ok s2) →
      ∃ s2, assign_card wr st cards t = Except.ok s2) :=
  ⟨assign_card_ops_eq cards t, fun h => runRegion_ok wr _ h st⟩

/-- Witness for **C7**: with a backend that accepts every write, `assign_card`
on a concrete hand returns success. -/
theorem assign_card_writes_five_cells_witness :
    ∃ s2, assign_card (fun (s : Unit) (_ : RegionOp Rat) => (Except.ok s : Except Unit Unit))
      () (fun _ => some 1) (fun _ => some 2) = Except.ok s2 :=
  (assign_card_writes_five_cells (fun _ => some 1) (fun _ => some 2)
    (fun s _ => Except.ok s) ()).2 (fun s _ _ => ⟨s, rfl⟩)

omit [Field F] in
/-- **C8.**  `assign_card` fails only by surfacing, unmodified, an error of
the backend write primitive on one of its five writes; it validates nothing
itself: for every choice of the five input values (duplicates included), if
the backend accepts the writes then `assign_card` succeeds. -/
theorem assign_card_error_from_backend {σ E : Type} (cards : Fin 2 → Option F)
    (t : Fin 3 → Option F) (wr : σ → RegionOp F → Except E σ) (st : σ) :
    (∀ e, assign_card wr st cards t = Except.error e →
       ∃ s op, op ∈ assign_card_ops circuitConfig.cards cards t ∧
         wr s op = Except.error e) ∧
    ((∀ s op, ∃ s2, wr s op = Except.ok s2) →
       ∃ s2, assign_card wr st cards t = Except.ok s2) :=
  ⟨fun e h => runRegion_error wr _ st e h,
   fun h => runRegion_ok wr _ (fun s op _ => h s op) st⟩

/-- Witness for **C8**: with a backend that rejects every write with error 7,
`assign_card` fails and the error indeed comes verbatim from a backend write
on one of the five operations. -/
theorem assign_card_error_from_backend_witness :
    ∃ s op, op ∈ assign_card_ops (F := Rat) circuitConfig.cards
        (fun _ => some 1) (fun _ => some 1) ∧
      (fun (_ : Unit) (_ : RegionOp Rat) => (Except.error 7 : Except Nat Unit)) s op =
        Except.error 7 :=
  (assign_card_error_from_backend (fun _ => some 1) (fun _ => some 1)
    (fun _ _ => Except.error 7) ()).1 7 rfl

omit [Field F] in
/-- **C9.**  Every region operation of `assign_card` is an advice write into
one of the five card columns at row 0; consequently, running its operations
over a concrete store leaves every other location — the `num_of_pair` and
`num_of_same_kind` cells, every selector slot, and every instance cell —
unchanged. -/
theorem assign_card_frame (cards : Fin 2 → Option F) (t : Fin 3 → Option F) :
    ((assign_card_ops circuitConfig.cards cards t).all RegionOp.isCardWrite) = true ∧
    (∀ (st : Target → Option (Option F)) (tg : Target),
       (∀ i, i < 5 → tg ≠ Target.cell (Col.advice i) 0) →
       runStore st (assign_card_ops circuitConfig.cards cards t) tg = st tg) := by
  refine ⟨rfl, ?_⟩
  intro st tg htg
  rw [assign_card_ops_eq]
  simp only [runStore, applyOp]
  rw [if_neg (htg 4 (by norm_num)), if_neg (htg 3 (by norm_num)),
      if_neg (htg 2 (by norm_num)), if_neg (htg 1 (by norm_num)),
      if_neg (htg 0 (by norm_num))]

/-- Witness for **C9**: on a concrete hand and an empty store, the
`num_of_pair` cell (advice column 5, row 0) is untouched by `assign_card`'s
operations. -/
theorem assign_card_frame_witness :
    runStore (fun _ => (none : Option (Option Rat)))
      (assign_card_ops circuitConfig.cards (fun _ => some 1) (fun _ => some 2))
      (Target.cell (Col.advice 5) 0) = none :=
  (assign_card_frame (fun _ => some 1) (fun _ => some 2)).2 _ _
    (by intro i hi h; simp [Target.cell.injEq, Col.advice.injEq] at h; omega)

/-- **C10.**  The "full house" gate is redundant: its polynomial list is
exactly the concatenation of the "three of a kind" gate's and the "one pair"
gate's polynomial lists; the last registered gate is the "full house" gate,
and for every selector configuration and every assignment the system with the
full-house gate is satisfiable exactly when the system without it (all gates
but the last) is. -/
theorem full_house_gate_redundant (F : Type) [Field F] :
    (∃ gPair, gPair ∈ circuitGates F ∧ ∃ gThree, gThree ∈ circuitGates F ∧
       ∃ gFull, gFull ∈ circuitGates F ∧
       gPair.name = "one pair" ∧ gThree.name = "three of a kind" ∧
       gFull.name = "full house" ∧ gFull.polys = gThree.polys ++ gPair.polys) ∧
    ((circuitGates F).getLast?.map Gate.name = some "full house") ∧
    (∀ sel adv i2 : Nat → F,
       systemSatisfied (circuitGates F) sel adv i2 ↔
       systemSatisfied ((circuitGates F).dropLast) sel adv i2) := by
  constructor
  · refine ⟨{ name := "one pair"
            , polys := [Expr.mul (Expr.selector 2)
                (Expr.sub (Expr.const 1) (Expr.query (Col.advice 5)))] }, ?_,
            { name := "three of a kind"
            , polys := [Expr.mul (Expr.selector 4)
                (Expr.sub (Expr.const 3) (Expr.query (Col.advice 6)))] }, ?_,
            { name := "full house"
            , polys := [Expr.mul (Expr.selector 4)
                (Expr.sub (Expr.const 3) (Expr.query (Col.advice 6)))
              , Expr.mul (Expr.selector 2)
                (Expr.sub (Expr.const 1) (Expr.query (Col.advice 5)))] }, ?_,
            rfl, rfl, rfl, rfl⟩ <;>
      simp [circuitGates, VanillaHoldemCircuit.configure, VanillaHoldemChip.configure]
  · refine ⟨rfl, ?_⟩
    intro sel adv i2
    simp [systemSatisfied, gateSatisfied, circuitGates, List.dropLast,
      VanillaHoldemCircuit.configure, VanillaHoldemChip.configure, Expr.eval]
    exact fun _ _ _ _ _ _ _ _ h9 _ h11 _ => ⟨h11, h9⟩

/-! ## Executable spot checks on concrete rows over the prime field ZMod 17 -/

instance : Fact (Nat.Prime 17) := ⟨by norm_num⟩

/-- Concrete check of the straight gate: cards (7,1,1,1,1) satisfy the
row (first card unconstrained), while the genuine straight 1,2,3,4,5 does
not. -/
lemma straight_gate_concrete_check :
    satisfiedRow (F := ZMod 17) onlyStraight ⟨![7, 1, 1, 1, 1], 0, 0⟩ (fun _ => 0) ∧
    ¬ satisfiedRow (F := ZMod 17) onlyStraight ⟨![1, 2, 3, 4, 5], 0, 0⟩ (fun _ => 0) := by
  decide

/-- Concrete check of the flush gate: five equal card values satisfy the
row, and changing a single one breaks it. -/
lemma flush_gate_concrete_check :
    satisfiedRow (F := ZMod 17) onlyFlush ⟨![3, 3, 3, 3, 3], 9, 9⟩ (fun _ => 0) ∧
    ¬ satisfiedRow (F := ZMod 17) onlyFlush ⟨![3, 3, 4, 3, 3], 9, 9⟩ (fun _ => 0) := by
  decide

/-- Concrete check of the counting gates: with the one-pair selector on,
`num_of_pair = 1` satisfies the row and `num_of_pair = 2` does not. -/
lemma one_pair_gate_concrete_check :
    satisfiedRow (F := ZMod 17) onlyOnePair ⟨![5, 5, 8, 9, 11], 1, 2⟩ (fun _ => 0) ∧
    ¬ satisfiedRow (F := ZMod 17) onlyOnePair ⟨![5, 5, 8, 9, 11], 2, 2⟩ (fun _ => 0) := by
  decide
